import Mathlib

/-!
Shallow embedding of `src/components/Layout.tsx` (the Page Shell).

The source component is:

  const Layout: React.FC<Props> = ({ children }) => {
    const router = useRouter()
    const [domLoaded, setDomLoaded] = useState(false)
    useEffect(() => { setDomLoaded(true) }, [])
    if (domLoaded) {
      return (
        <>
          <div className="absolute ... bg-gradient-to-r ..." />   -- banner
          <div className="flex ... mx-auto w-full max-w-[1400px] ...">
            <Navigation />
            {children}
            <Footer />
          </div>
        </>
      )
    }
    return <></>
  }

We model JSX trees as `Node`, the `useState` flag plus the React
bookkeeping for a `[]`-deps effect as `HookState`, and a mount lifecycle
as a list of runtime events (render passes, the effect flush, unmount)
interpreted by a small-step transition function.
-/

/-- Model of JSX element trees produced by the shell. The styled banner
div, the bounded-width centered container div, the `Navigation` and
`Footer` collaborators are opaque constructors; `child n` stands for an
arbitrary supplied child marker; `fragment` is the JSX `<>...</>`. -/
inductive Node : Type where
  | banner : Node
  | container : List Node → Node
  | navigation : Node
  | footer : Node
  | fragment : List Node → Node
  | child : Nat → Node

/-- The value returned by `useRouter()`. The shell obtains it but never
reads it, so one field suffices to compare two distinct router values. -/
structure Router : Type where
  pathname : String
  deriving DecidableEq, Repr

/-- Per-instance hook state: the `domLoaded` flag of `useState(false)`,
and the React record of whether the `[]`-deps effect has already run (an
empty dependency array means the effect body runs at most once). -/
structure HookState : Type where
  domLoaded : Bool
  effectDone : Bool
  deriving DecidableEq, Repr

/-- State at construction: `useState(false)` and the effect not yet run. -/
def initialHookState : HookState := { domLoaded := false, effectDone := false }

/-- Side effects an event can perform. `setStateDomLoaded` is a call of
the `setDomLoaded` updater; the remaining constructors are the external
effect kinds the spec rules out (never emitted by the embedded code). -/
inductive SideEffect : Type where
  | setStateDomLoaded : Bool → SideEffect
  | network : SideEffect
  | storage : SideEffect
  | externalCall : SideEffect
  deriving DecidableEq, Repr

/-- Body of the `useEffect` callback: the single call `setDomLoaded(true)`. -/
def layoutEffectBody : List SideEffect := [SideEffect.setStateDomLoaded true]

/-- Apply one side effect to the hook state: only `setDomLoaded` writes
the flag, nothing else touches any state. -/
def applySetState (s : HookState) : SideEffect → HookState
  | SideEffect.setStateDomLoaded v => { s with domLoaded := v }
  | _ => s

/-- The render body of `Layout`: given the router, the supplied children
and the current `domLoaded` flag, produce the JSX tree that the source
returns. When the flag is set: the banner div, then the container div
holding `Navigation`, the children, and `Footer`; otherwise `<></>`. -/
def Layout (router : Router) (children : List Node) (domLoaded : Bool) : Node :=
  if domLoaded then
    Node.fragment
      [Node.banner,
       Node.container (Node.navigation :: children ++ [Node.footer])]
  else
    Node.fragment []

/-- Runtime events of a mount lifecycle: a render pass, React flushing
the scheduled `[]`-deps effect, and unmount. -/
inductive Event : Type where
  | render : Event
  | flushEffect : Event
  | unmount : Event
  deriving DecidableEq, Repr

/-- Small-step state transition. `none` is the unmounted instance: every
event on it is a no-op (React never runs effects of an unmounted
component). A render pass is pure and leaves the state unchanged.
Flushing the effect runs `layoutEffectBody` once and records that it ran;
a second flush is a no-op because the dependency array is empty.
Unmount discards all local state. -/
def nextState : Option HookState → Event → Option HookState
  | none, _ => none
  | some s, Event.render => some s
  | some s, Event.flushEffect =>
      if s.effectDone then some s
      else some { layoutEffectBody.foldl applySetState s with effectDone := true }
  | some _, Event.unmount => none

/-- Output of a single event: a render pass on a mounted instance emits
the tree `Layout` returns; everything else emits nothing. -/
def emits (router : Router) (children : List Node) :
    Option HookState → Event → List Node
  | none, _ => []
  | some s, Event.render => [Layout router children s.domLoaded]
  | some _, Event.flushEffect => []
  | some _, Event.unmount => []

/-- Side effects of a single event: flushing the pending effect performs
the effect body; every other event performs none. -/
def emitsLog : Option HookState → Event → List SideEffect
  | none, _ => []
  | some _, Event.render => []
  | some s, Event.flushEffect => if s.effectDone then [] else layoutEffectBody
  | some _, Event.unmount => []

/-- All render outputs produced while interpreting a trace of events. -/
def outputsFrom (router : Router) (children : List Node) :
    Option HookState → List Event → List Node
  | _, [] => []
  | s, e :: rest =>
      emits router children s e ++ outputsFrom router children (nextState s e) rest

/-- All side effects performed while interpreting a trace of events. -/
def logFrom : Option HookState → List Event → List SideEffect
  | _, [] => []
  | s, e :: rest => emitsLog s e ++ logFrom (nextState s e) rest

/-- The instance state after interpreting a trace of events. -/
def finalState : Option HookState → List Event → Option HookState
  | s, [] => s
  | s, e :: rest => finalState (nextState s e) rest

/-- The sequence of instance states visited while interpreting a trace
(including the starting state). -/
def statesFrom : Option HookState → List Event → List (Option HookState)
  | s, [] => [s]
  | s, e :: rest => s :: statesFrom (nextState s e) rest

/-- The values taken by the `domLoaded` flag along a trace started in a
given instance state, for as long as the instance is mounted. -/
def domTraceFrom (s : Option HookState) (t : List Event) : List Bool :=
  (statesFrom s t).filterMap (fun os => os.map HookState.domLoaded)

/-- The values taken by the `domLoaded` flag along a trace started at
construction, for as long as the instance is mounted. -/
def domTrace (t : List Event) : List Bool :=
  domTraceFrom (some initialHookState) t

/-- After the effect has flushed, React only delivers further render
passes and at most a final unmount: recognizer for such tails. -/
def renderTail : List Event → Bool
  | [] => true
  | Event.render :: rest => renderTail rest
  | Event.unmount :: rest => rest.isEmpty
  | Event.flushEffect :: _ => false

/-- What may follow the first render pass of a mount lifecycle: nothing
yet, an immediate unmount, or the effect flush followed by a `renderTail`.
React delivers no second render of this component before the scheduled
effect flush. -/
def validTail : List Event → Bool
  | [] => true
  | Event.unmount :: rest => rest.isEmpty
  | Event.flushEffect :: rest => renderTail rest
  | Event.render :: _ => false

/-- Recognizer for the event traces React can produce for one mount
lifecycle of this component: a first render pass followed by a
`validTail`. -/
def validTrace : List Event → Bool
  | Event.render :: rest => validTail rest
  | _ => false

/-- Number of render events in a trace. -/
def renderCount : List Event → Nat
  | [] => 0
  | Event.render :: rest => renderCount rest + 1
  | _ :: rest => renderCount rest

/-- Top-level items of a fragment tree (a non-fragment is its own item). -/
def fragmentItems : Node → List Node
  | Node.fragment l => l
  | n => [n]

/-- Content list of a container node; empty for anything else. -/
def containerItems : Node → List Node
  | Node.container l => l
  | _ => []

/-- Everything placed inside a container that is a top-level item of the
given output tree: the nodes the shell put "inside the bounded-width
centered container". -/
def shellContainerContent (out : Node) : List Node :=
  (fragmentItems out).foldr (fun n acc => containerItems n ++ acc) []

/-! ### Basic lemmas about the interpreter -/

theorem nextState_none (e : Event) : nextState none e = none := rfl

theorem nextState_unmount (s : Option HookState) : nextState s Event.unmount = none := by
  cases s <;> rfl

theorem finalState_none (t : List Event) : finalState none t = none := by
  induction t with
  | nil => rfl
  | cons e rest ih => simpa [finalState, nextState] using ih

theorem outputsFrom_none (router : Router) (children : List Node) (t : List Event) :
    outputsFrom router children none t = [] := by
  induction t with
  | nil => rfl
  | cons e rest ih => simpa [outputsFrom, emits, nextState] using ih

theorem logFrom_none (t : List Event) : logFrom none t = [] := by
  induction t with
  | nil => rfl
  | cons e rest ih => simpa [logFrom, emitsLog, nextState] using ih

theorem statesFrom_none (t : List Event) :
    statesFrom none t = List.replicate (t.length + 1) none := by
  induction t with
  | nil => rfl
  | cons e rest ih =>
      simp [statesFrom, nextState, ih, List.replicate_succ]

theorem domTraceFrom_none (t : List Event) : domTraceFrom none t = [] := by
  simp [domTraceFrom, statesFrom_none]

theorem domTraceFrom_cons (s : HookState) (e : Event) (t : List Event) :
    domTraceFrom (some s) (e :: t) =
      s.domLoaded :: domTraceFrom (nextState (some s) e) t := by
  simp [domTraceFrom, statesFrom]

theorem domTraceFrom_nil (s : HookState) :
    domTraceFrom (some s) [] = [s.domLoaded] := rfl

theorem finalState_append (s : Option HookState) (a b : List Event) :
    finalState s (a ++ b) = finalState (finalState s a) b := by
  induction a generalizing s with
  | nil => rfl
  | cons e rest ih => simp [finalState, ih]

theorem outputsFrom_append (router : Router) (children : List Node)
    (s : Option HookState) (a b : List Event) :
    outputsFrom router children s (a ++ b) =
      outputsFrom router children s a ++ outputsFrom router children (finalState s a) b := by
  induction a generalizing s with
  | nil => rfl
  | cons e rest ih => simp [outputsFrom, finalState, ih]

theorem logFrom_append (s : Option HookState) (a b : List Event) :
    logFrom s (a ++ b) = logFrom s a ++ logFrom (finalState s a) b := by
  induction a generalizing s with
  | nil => rfl
  | cons e rest ih => simp [logFrom, finalState, ih]

theorem domLoaded_nextState {s s' : HookState} (e : Event)
    (h : nextState (some s) e = some s') (hd : s.domLoaded = true) :
    s'.domLoaded = true := by
  cases e with
  | render =>
      simp [nextState] at h
      exact h ▸ hd
  | flushEffect =>
      by_cases he : s.effectDone
      · simp [nextState, he] at h
        exact h ▸ hd
      · simp [nextState, he, layoutEffectBody, applySetState] at h
        rw [← h]
  | unmount => simp [nextState] at h

theorem nextState_flush_initial :
    nextState (some initialHookState) Event.flushEffect =
      some { domLoaded := true, effectDone := true } := rfl

theorem outputsFrom_ready (router : Router) (children : List Node) :
    ∀ (rest : List Event) (s : HookState), renderTail rest = true → s.domLoaded = true →
      outputsFrom router children (some s) rest =
        List.replicate (renderCount rest)
          (Node.fragment
            [Node.banner,
             Node.container (Node.navigation :: children ++ [Node.footer])]) := by
  intro rest
  induction rest with
  | nil => intro s _ _; rfl
  | cons e r ih =>
      intro s h hd
      cases e with
      | render =>
          have h' : renderTail r = true := by simpa [renderTail] using h
          simp [outputsFrom, emits, nextState, renderCount, Layout, hd, ih s h' hd,
            List.replicate_succ]
      | flushEffect => simp [renderTail] at h
      | unmount =>
          have h' : r = [] := by simpa [renderTail, List.isEmpty_iff] using h
          subst h'
          simp [outputsFrom, emits, nextState, renderCount]

theorem domTraceFrom_ready :
    ∀ (rest : List Event) (s : HookState), renderTail rest = true → s.domLoaded = true →
      domTraceFrom (some s) rest = List.replicate (renderCount rest + 1) true := by
  intro rest
  induction rest with
  | nil => intro s _ hd; simp [domTraceFrom_nil, hd, renderCount]
  | cons e r ih =>
      intro s h hd
      cases e with
      | render =>
          have h' : renderTail r = true := by simpa [renderTail] using h
          rw [domTraceFrom_cons]
          simp [nextState, renderCount, hd, ih s h' hd, List.replicate_succ]
      | flushEffect => simp [renderTail] at h
      | unmount =>
          have h' : r = [] := by simpa [renderTail, List.isEmpty_iff] using h
          subst h'
          rw [domTraceFrom_cons]
          simp [nextState, renderCount, hd, domTraceFrom_none]

theorem logFrom_renderTail :
    ∀ (rest : List Event) (s : Option HookState), renderTail rest = true →
      logFrom s rest = [] := by
  intro rest
  induction rest with
  | nil => intro s _; rfl
  | cons e r ih =>
      intro s h
      cases e with
      | render =>
          have h' : renderTail r = true := by simpa [renderTail] using h
          cases s with
          | none => simp [logFrom, emitsLog, nextState, ih none h']
          | some st => simp [logFrom, emitsLog, nextState, ih (some st) h']
      | flushEffect => simp [renderTail] at h
      | unmount =>
          have h' : r = [] := by simpa [renderTail, List.isEmpty_iff] using h
          subst h'
          cases s with
          | none => rfl
          | some st => rfl

theorem domTraceFrom_all_true :
    ∀ (t : List Event) (s : HookState), s.domLoaded = true →
      ∃ n, domTraceFrom (some s) t = List.replicate n true := by
  intro t
  induction t with
  | nil => intro s hd; exact ⟨1, by simp [domTraceFrom_nil, hd]⟩
  | cons e r ih =>
      intro s hd
      rw [domTraceFrom_cons, hd]
      cases hn : nextState (some s) e with
      | none => exact ⟨1, by simp [domTraceFrom_none]⟩
      | some s2 =>
          obtain ⟨n, h⟩ := ih s2 (domLoaded_nextState e hn hd)
          exact ⟨n + 1, by simp [h, List.replicate_succ]⟩

theorem domTraceFrom_shape :
    ∀ (t : List Event) (s : HookState),
      ∃ m n, domTraceFrom (some s) t =
        List.replicate m false ++ List.replicate n true := by
  intro t
  induction t with
  | nil =>
      intro s
      cases hd : s.domLoaded
      · exact ⟨1, 0, by simp [domTraceFrom_nil, hd]⟩
      · exact ⟨0, 1, by simp [domTraceFrom_nil, hd]⟩
  | cons e r ih =>
      intro s
      cases hd : s.domLoaded
      · rw [domTraceFrom_cons, hd]
        cases hn : nextState (some s) e with
        | none => exact ⟨1, 0, by simp [domTraceFrom_none]⟩
        | some s2 =>
            obtain ⟨m, n, h⟩ := ih s2
            exact ⟨m + 1, n, by simp [h, List.replicate_succ]⟩
      · obtain ⟨n, h⟩ := domTraceFrom_all_true (e :: r) s hd
        exact ⟨0, n, by simp [h]⟩

theorem validTrace_shape {t : List Event} (h : validTrace t = true) :
    ∃ rest, t = Event.render :: rest ∧ validTail rest = true := by
  cases t with
  | nil => simp [validTrace] at h
  | cons e rest =>
      cases e with
      | render => exact ⟨rest, rfl, h⟩
      | flushEffect => simp [validTrace] at h
      | unmount => simp [validTrace] at h

theorem outputsFrom_validTail (router : Router) (children : List Node)
    (rest : List Event) (hv : validTail rest = true) :
    outputsFrom router children (some initialHookState) rest =
      List.replicate (renderCount rest)
        (Node.fragment
          [Node.banner,
           Node.container (Node.navigation :: children ++ [Node.footer])]) := by
  cases rest with
  | nil => rfl
  | cons e r =>
      cases e with
      | render => simp [validTail] at hv
      | flushEffect =>
          have hr : renderTail r = true := hv
          have h1 := outputsFrom_ready router children r
            { domLoaded := true, effectDone := true } hr rfl
          simp [outputsFrom, emits, nextState_flush_initial, renderCount, h1]
      | unmount =>
          have hr : r = [] := by simpa [validTail, List.isEmpty_iff] using hv
          subst hr
          rfl

theorem logFrom_first_lifecycle (rest : List Event) (h : renderTail rest = true) :
    logFrom (some initialHookState) (Event.render :: Event.flushEffect :: rest) =
      [SideEffect.setStateDomLoaded true] := by
  have h2 := logFrom_renderTail rest (some { domLoaded := true, effectDone := true }) h
  simp [logFrom, emitsLog, nextState, initialHookState, layoutEffectBody, applySetState, h2]

theorem logFrom_only_setState :
    ∀ (t : List Event) (s : Option HookState),
      ∀ e ∈ logFrom s t, e = SideEffect.setStateDomLoaded true := by
  intro t
  induction t with
  | nil => intro s e he; simp [logFrom] at he
  | cons ev r ih =>
      intro s e he
      simp only [logFrom] at he
      rcases List.mem_append.mp he with h1 | h2
      · cases s with
        | none => simp [emitsLog] at h1
        | some st =>
            cases ev with
            | render => simp [emitsLog] at h1
            | flushEffect =>
                by_cases hd : st.effectDone
                · simp [emitsLog, hd] at h1
                · simpa [emitsLog, hd, layoutEffectBody] using h1
            | unmount => simp [emitsLog] at h1
      · exact ih (nextState s ev) e h2

/-! ### The claims -/

/-- Claim C1: for every mount lifecycle of the Page Shell and every list of
supplied children, every render after the first emits navigation, then the
supplied children in the order given, then the footer, each exactly once,
with no child duplicated or dropped (each such render is the fragment
holding the banner and the container whose content is exactly
`navigation :: children ++ [footer]`). -/
theorem layout_shell_c1 (router : Router) (children : List Node)
    (t : List Event) (h : validTrace t = true) :
    (outputsFrom router children (some initialHookState) t).drop 1 =
      List.replicate
        ((outputsFrom router children (some initialHookState) t).length - 1)
        (Node.fragment
          [Node.banner,
           Node.container (Node.navigation :: children ++ [Node.footer])]) := by
  obtain ⟨rest, rfl, hv⟩ := validTrace_shape h
  have hout : outputsFrom router children (some initialHookState)
      (Event.render :: rest) =
      Node.fragment [] :: outputsFrom router children (some initialHookState) rest := by
    simp [outputsFrom, emits, nextState, initialHookState, Layout]
  rw [hout, outputsFrom_validTail router children rest hv]
  simp

/-- Witness for C1: a lifecycle with two distinct children and two renders
after the first. -/
theorem layout_shell_c1_witness :
    validTrace [Event.render, Event.flushEffect, Event.render, Event.render] = true ∧
    (outputsFrom ⟨"/"⟩ [Node.child 0, Node.child 1] (some initialHookState)
        [Event.render, Event.flushEffect, Event.render, Event.render]).drop 1 =
      List.replicate
        ((outputsFrom ⟨"/"⟩ [Node.child 0, Node.child 1] (some initialHookState)
            [Event.render, Event.flushEffect, Event.render, Event.render]).length - 1)
        (Node.fragment
          [Node.banner,
           Node.container
             (Node.navigation :: [Node.child 0, Node.child 1] ++ [Node.footer])]) :=
  ⟨rfl, layout_shell_c1 ⟨"/"⟩ [Node.child 0, Node.child 1]
    [Event.render, Event.flushEffect, Event.render, Event.render] rfl⟩

/-- Claim C2: for every mount lifecycle and every children input, the first
render pass produces no visible output at all: it is the empty fragment —
no navigation, no footer, no content, no banner. -/
theorem layout_shell_c2 (router : Router) (children : List Node)
    (t : List Event) (h : validTrace t = true) :
    (outputsFrom router children (some initialHookState) t).head? =
      some (Node.fragment []) := by
  obtain ⟨rest, rfl, hv⟩ := validTrace_shape h
  simp [outputsFrom, emits, nextState, initialHookState, Layout]

/-- Witness for C2: the first render of a freshly mounted shell. -/
theorem layout_shell_c2_witness :
    validTrace [Event.render] = true ∧
    (outputsFrom ⟨"/"⟩ [Node.child 0] (some initialHookState) [Event.render]).head? =
      some (Node.fragment []) :=
  ⟨rfl, layout_shell_c2 ⟨"/"⟩ [Node.child 0] [Event.render] rfl⟩

/-- Claim C3: the `domLoaded` flag starts false at construction and, along
every sequence of events, while the instance is mounted it transitions at
most once, only from false to true, and never from true back to false:
its value sequence is some falses followed by some trues. -/
theorem layout_shell_c3 :
    initialHookState.domLoaded = false ∧
    ∀ t : List Event, (domTrace t).head? = some false ∧
      ∃ m n, domTrace t = List.replicate m false ++ List.replicate n true := by
  refine ⟨rfl, fun t => ⟨?_, domTraceFrom_shape t initialHookState⟩⟩
  cases t with
  | nil => rfl
  | cons e r =>
      show (domTraceFrom (some initialHookState) (e :: r)).head? = some false
      rw [domTraceFrom_cons]
      rfl

/-- Claim C4: in every lifecycle that completes its first render and the
scheduled effect, the false-to-true transition of the flag happens exactly
once — the flag sequence is exactly two falses (initial state and first
render) followed by trues — and the effect performs exactly one
`setDomLoaded(true)` call in the whole lifecycle, so exactly one re-render
is triggered and no later render re-triggers the transition. -/
theorem layout_shell_c4 (rest : List Event) (h : renderTail rest = true) :
    domTrace (Event.render :: Event.flushEffect :: rest) =
      false :: false :: List.replicate (renderCount rest + 1) true ∧
    logFrom (some initialHookState) (Event.render :: Event.flushEffect :: rest) =
      [SideEffect.setStateDomLoaded true] := by
  constructor
  · show domTraceFrom (some initialHookState)
      (Event.render :: Event.flushEffect :: rest) = _
    rw [domTraceFrom_cons]
    rw [show nextState (some initialHookState) Event.render = some initialHookState from rfl]
    rw [domTraceFrom_cons, nextState_flush_initial]
    rw [domTraceFrom_ready rest { domLoaded := true, effectDone := true } h rfl]
    rfl
  · exact logFrom_first_lifecycle rest h

/-- Witness for C4: a lifecycle with one re-render after the effect. -/
theorem layout_shell_c4_witness :
    renderTail [Event.render] = true ∧
    (domTrace [Event.render, Event.flushEffect, Event.render] =
        false :: false :: List.replicate (renderCount [Event.render] + 1) true ∧
      logFrom (some initialHookState) [Event.render, Event.flushEffect, Event.render] =
        [SideEffect.setStateDomLoaded true]) :=
  ⟨rfl, layout_shell_c4 [Event.render] rfl⟩

/-- Counterexample for C5: at zero children, in the ready state, the banner
is a top-level item of the emitted fragment but is not among the nodes the
shell placed inside the bounded-width centered container — the claim that
the banner is inside the container is false on the code. -/
theorem layout_shell_c5_counterexample :
    fragmentItems (Layout ⟨"/"⟩ [] true) =
      [Node.banner, Node.container [Node.navigation, Node.footer]] ∧
    shellContainerContent (Layout ⟨"/"⟩ [] true) = [Node.navigation, Node.footer] ∧
    Node.banner ∉ shellContainerContent (Layout ⟨"/"⟩ [] true) := by
  refine ⟨rfl, rfl, ?_⟩
  intro hmem
  have hmem' : Node.banner ∈ [Node.navigation, Node.footer] := hmem
  cases hmem' with
  | tail _ h2 =>
      cases h2 with
      | tail _ h3 => cases h3

/-- Claim C5 as amended: for every render of the Page Shell after readiness,
the navigation, the supplied children, and the footer are placed inside the
bounded-width centered container, while the fixed decorative banner element
is emitted as a sibling immediately before the container, outside it. -/
theorem layout_shell_c5_amended (router : Router) (children : List Node) :
    fragmentItems (Layout router children true) =
      [Node.banner,
       Node.container (Node.navigation :: children ++ [Node.footer])] ∧
    shellContainerContent (Layout router children true) =
      Node.navigation :: children ++ [Node.footer] := by
  constructor
  · rfl
  · simp [shellContainerContent, fragmentItems, containerItems, Layout]

/-- Claim C6: with zero children, once the flag is true the shell still
emits the banner, the navigation and the footer, with empty content between
navigation and footer inside the container. -/
theorem layout_shell_c6 (router : Router) :
    Layout router [] true =
      Node.fragment [Node.banner, Node.container [Node.navigation, Node.footer]] ∧
    shellContainerContent (Layout router [] true) = [Node.navigation, Node.footer] :=
  ⟨rfl, rfl⟩

/-- Claim C7: rendering the Page Shell is total and cannot fail — for every
router, children and flag value the render reaches one of the two return
branches (the empty fragment or the full frame), and the flag transition of
the effect body is total and unconditional: it sets the flag from every
state. -/
theorem layout_shell_c7 (router : Router) (children : List Node) (b : Bool) :
    (Layout router children b = Node.fragment [] ∨
      Layout router children b =
        Node.fragment
          [Node.banner,
           Node.container (Node.navigation :: children ++ [Node.footer])]) ∧
    ∀ s : HookState, (layoutEffectBody.foldl applySetState s).domLoaded = true := by
  refine ⟨?_, fun s => rfl⟩
  cases b
  · exact Or.inl rfl
  · exact Or.inr rfl

/-- Claim C8: unmounting discards all local state and leaves no dangling
scheduled transition — whatever happens before the unmount, after it the
instance state is gone and the events that follow produce no further state,
no output and no side effect. -/
theorem layout_shell_c8 (router : Router) (children : List Node)
    (t1 t2 : List Event) :
    finalState (some initialHookState) (t1 ++ Event.unmount :: t2) = none ∧
    outputsFrom router children (some initialHookState) (t1 ++ Event.unmount :: t2) =
      outputsFrom router children (some initialHookState) t1 ∧
    logFrom (some initialHookState) (t1 ++ Event.unmount :: t2) =
      logFrom (some initialHookState) t1 := by
  refine ⟨?_, ?_, ?_⟩
  · rw [finalState_append]
    cases hf : finalState (some initialHookState) t1 <;>
      simp [finalState, nextState, finalState_none]
  · rw [outputsFrom_append]
    cases hf : finalState (some initialHookState) t1 <;>
      simp [outputsFrom, emits, nextState, outputsFrom_none]
  · rw [logFrom_append]
    cases hf : finalState (some initialHookState) t1 <;>
      simp [logFrom, emitsLog, nextState, logFrom_none]

/-- Claim C9: the only side effect of the Page Shell is the single
`setDomLoaded(true)` state transition — every effect performed on any
trace is that call (never a network, storage or external call), and on a
valid mount lifecycle the whole effect log is empty or exactly that one
call. -/
theorem layout_shell_c9 (t : List Event) :
    (∀ e ∈ logFrom (some initialHookState) t, e = SideEffect.setStateDomLoaded true) ∧
    (validTrace t = true →
      logFrom (some initialHookState) t = [] ∨
      logFrom (some initialHookState) t = [SideEffect.setStateDomLoaded true]) := by
  refine ⟨logFrom_only_setState t (some initialHookState), fun hv => ?_⟩
  obtain ⟨rest, rfl, hv'⟩ := validTrace_shape hv
  cases rest with
  | nil => exact Or.inl rfl
  | cons e r =>
      cases e with
      | render => simp [validTail] at hv'
      | flushEffect => exact Or.inr (logFrom_first_lifecycle r hv')
      | unmount =>
          have hr : r = [] := by simpa [validTail, List.isEmpty_iff] using hv'
          subst hr
          exact Or.inl rfl

/-- Witness for C9 at a complete concrete lifecycle. -/
theorem layout_shell_c9_witness :
    logFrom (some initialHookState) [Event.render, Event.flushEffect, Event.render] = [] ∨
    logFrom (some initialHookState) [Event.render, Event.flushEffect, Event.render] =
      [SideEffect.setStateDomLoaded true] :=
  (layout_shell_c9 [Event.render, Event.flushEffect, Event.render]).2 rfl

/-- Claim C10: the rendered output does not depend on the router, whose
value is obtained but never used — two executions with the same flag value
and the same children but arbitrary router values render identically, both
for a single render pass and for the outputs of a whole event trace. -/
theorem layout_shell_c10 (r1 r2 : Router) (children : List Node) (b : Bool)
    (s : Option HookState) (t : List Event) :
    Layout r1 children b = Layout r2 children b ∧
    outputsFrom r1 children s t = outputsFrom r2 children s t := by
  refine ⟨rfl, ?_⟩
  induction t generalizing s with
  | nil => rfl
  | cons e rest ih =>
      cases s with
      | none => simp [outputsFrom, emits, nextState, ih]
      | some st =>
          cases e <;> simp [outputsFrom, emits, nextState, ih] <;> rfl
